import Mathlib

/-!
Verification of the flow-tracking and behavioural-scoring pipeline of
protocol-argus-cortex.

Shallow embedding conventions:
* Go `float64` values are modelled as exact rationals (`ℚ`) where the code only
  performs field arithmetic and comparisons, and as reals (`ℝ`) where the code
  applies `math.Exp` (sigmoid).
* Go `int64` counters are modelled as `ℤ`.
* `time.Time` values are modelled as rational numbers of seconds; `t.Sub u` is
  `t - u` and `t.Before u` is `t < u`.
* Go maps are modelled as association lists; map iteration order is irrelevant
  to every property proved here.
* The time-based noise term of `simulateInference` (`time.Now().UnixNano()%100`)
  is modelled by an explicit natural-number parameter `noise`.
-/

namespace Cortex

/-- Inference statistics of the cortex engine (`internal/cortex`, `Statistics`). -/
structure Statistics where
  totalInferences : ℤ
  botDetections : ℤ
  humanDetections : ℤ
  averageConfidence : ℚ
  lastInference : ℚ
deriving DecidableEq

/-- The zero-initialised statistics record (`NewEngine` allocates `&Statistics{}`). -/
def initStats : Statistics :=
  { totalInferences := 0, botDetections := 0, humanDetections := 0
    averageConfidence := 0, lastInference := 0 }

/-- Result of one bot-detection analysis (`DetectionResult`). -/
structure DetectionResult where
  isBot : Bool
  confidence : ℚ
  features : List ℚ
  reasoning : String
  timestamp : ℚ
  flowID : String
deriving DecidableEq

/-- Embedding of `(*Engine).updateStats`: increment `TotalInferences`, bump exactly one
of the two detection counters, and update the running average with
`avg = (avg*(total-1) + confidence) / total` where `total` is the post-increment count. -/
def updateStats (s : Statistics) (r : DetectionResult) : Statistics :=
  let total : ℤ := s.totalInferences + 1
  { totalInferences := total
    botDetections := if r.isBot then s.botDetections + 1 else s.botDetections
    humanDetections := if r.isBot then s.humanDetections else s.humanDetections + 1
    averageConfidence := (s.averageConfidence * ((total : ℚ) - 1) + r.confidence) / (total : ℚ)
    lastInference := r.timestamp }

/-- The statistics invariant of the spec: the two detection counters partition the
inference count and all counters are non-negative. -/
def statsInvariant (s : Statistics) : Prop :=
  s.botDetections + s.humanDetections = s.totalInferences ∧
    0 ≤ s.botDetections ∧ 0 ≤ s.humanDetections

instance (s : Statistics) : Decidable (statsInvariant s) := by
  unfold statsInvariant; infer_instance

/-- Loaded model metadata (`Model`). -/
structure Model where
  path : String
  inputSize : ℕ
  outputSize : ℕ
  loaded : Bool
deriving DecidableEq

/-- Cortex configuration (`config.CortexConfig`), detection threshold as a rational. -/
structure CortexConfig where
  modelPath : String
  detectionThreshold : ℚ
deriving DecidableEq

/-- Embedding of `(*Engine).loadModel`: the model is always created with
`InputSize = 128` and `loaded = true`. -/
def loadModel (cfg : CortexConfig) : Model :=
  { path := cfg.modelPath, inputSize := 128, outputSize := 2, loaded := true }

/-- The cortex engine state reachable from `NewEngine`: configuration, the model
produced by `loadModel`, and the mutable statistics. -/
structure Engine where
  config : CortexConfig
  model : Model
  stats : Statistics
deriving DecidableEq

/-- An engine as constructed by `NewEngine` (model loaded) whose statistics have
reached an arbitrary value `stats` through previous updates. -/
def engineWith (cfg : CortexConfig) (stats : Statistics) : Engine :=
  { config := cfg, model := loadModel cfg, stats := stats }

/-- Embedding of `(*Engine).simulateInference`.  The three feature probes, the
time-derived noise term (modelled by `noise`), the clamp at `1.0`, and the
bucketed reasoning text. -/
def simulateInference (noise : ℕ) (features : List ℚ) : ℚ × String :=
  let s1 : ℚ := if 10 ≤ features.length ∧ 1400 < features.getD 0 0 then 3/10 else 0
  let s2 : ℚ := if 20 ≤ features.length ∧ features.getD 10 0 < 1/10 then 4/10 else 0
  let s3 : ℚ := if 30 ≤ features.length ∧ features.getD 20 0 < 1/2 then 2/10 else 0
  let score : ℚ := s1 + s2 + s3 + ((noise % 100 : ℕ) : ℚ) / 1000
  let score : ℚ := if 1 < score then 1 else score
  let reasoning : String :=
    if 7/10 < score then "High confidence bot detection based on automated behavior patterns"
    else if 4/10 < score then "Suspicious activity detected, moderate confidence"
    else "Appears to be human traffic based on behavioral analysis"
  (score, reasoning)

/-- Embedding of `(*Engine).Analyze`: reject when the model is not loaded or when
the feature-vector length differs from the model input size, leaving the engine
unchanged; otherwise run `simulateInference`, build the result, and update the
statistics. -/
def Analyze (e : Engine) (noise : ℕ) (timestamp : ℚ) (features : List ℚ)
    (flowID : String) : Option DetectionResult × Engine :=
  if ¬ e.model.loaded then (none, e)
  else if features.length ≠ e.model.inputSize then (none, e)
  else
    let p := simulateInference noise features
    let isBot : Bool := decide (e.config.detectionThreshold ≤ p.1)
    let r : DetectionResult :=
      { isBot := isBot, confidence := p.1, features := features
        reasoning := p.2, timestamp := timestamp, flowID := flowID }
    (some r, { e with stats := updateStats e.stats r })

end Cortex

namespace Argus

/-- A captured packet (`Packet`): timestamp in seconds and byte size. -/
structure Packet where
  timestamp : ℚ
  size : ℤ
deriving DecidableEq

/-- A tracked network flow (`Flow`). -/
structure Flow where
  id : String
  packets : List Packet
  startTime : ℚ
  lastSeen : ℚ
  analysisPending : Bool
deriving DecidableEq

/-- Capture statistics (`CaptureStats`). -/
structure CaptureStats where
  totalPackets : ℤ
  activeFlows : ℤ
  analyzedFlows : ℤ
deriving DecidableEq

/-- The argus engine flow table and statistics (`Engine.flows`, `Engine.stats`). -/
structure ArgusEngine where
  flows : List (String × Flow)
  stats : CaptureStats
deriving DecidableEq

/-- The raw value written into feature slot `i` by `extractFeatures` before the
filler pass: slot 0 the mean packet size, slot 10 the population variance of
inter-arrival intervals (when at least two packets exist), slot 20 the packet
count, slot 21 the flow duration; every other slot is left at the default 0. -/
def rawFeature (flow : Flow) (i : ℕ) : ℚ :=
  if i = 0 then (flow.packets.map (fun p => (p.size : ℚ))).sum / (flow.packets.length : ℚ)
  else if i = 10 then
    if 1 < flow.packets.length then
      let intervals :=
        (flow.packets.zip flow.packets.tail).map (fun q => q.2.timestamp - q.1.timestamp)
      let mean := intervals.sum / (intervals.length : ℚ)
      (intervals.map (fun x => x * x)).sum / (intervals.length : ℚ) - mean * mean
    else 0
  else if i = 20 then (flow.packets.length : ℚ)
  else if i = 21 then flow.lastSeen - flow.startTime
  else 0

/-- The filler written by the final loop of `extractFeatures` into any slot whose
value is still 0: `float64(i%10) / 10.0`. -/
def fillerValue (i : ℕ) : ℚ := ((i % 10 : ℕ) : ℚ) / 10

/-- Embedding of `(*Engine).extractFeatures`: a 128-slot vector; all slots default
to 0 for an empty flow; otherwise the computed slots are written and the final
loop replaces every slot still equal to 0 with `fillerValue`. -/
def extractFeatures (flow : Flow) : List ℚ :=
  if flow.packets.length = 0 then List.replicate 128 0
  else
    (List.range 128).map (fun i =>
      if rawFeature flow i = 0 then fillerValue i else rawFeature flow i)

/-- The eligibility test of `performFlowAnalysis`: not pending and at least 10
packets. -/
def eligibleFlow (f : Flow) : Bool :=
  !f.analysisPending && decide (10 ≤ f.packets.length)

/-- One dispatched analysis: the flow id and the features sent to the cortex. -/
structure Dispatch where
  flowID : String
  features : List ℚ
deriving DecidableEq

/-- Embedding of `(*Engine).performFlowAnalysis`: snapshot the eligible flows, set
`AnalysisPending` on each of them, and dispatch one analysis per eligible flow.
Nothing in this function or in the dispatched completion ever resets the flag. -/
def performFlowAnalysis (e : ArgusEngine) : ArgusEngine × List Dispatch :=
  let eligible := e.flows.filter (fun p => eligibleFlow p.2)
  ({ e with
      flows := e.flows.map (fun p =>
        if eligibleFlow p.2 then (p.1, { p.2 with analysisPending := true }) else p) },
   eligible.map (fun p => { flowID := p.1, features := extractFeatures p.2 }))

/-- Embedding of the completion goroutine body of `performFlowAnalysis`: on a
successful `cortex.Analyze` the `AnalyzedFlows` counter is bumped; on an error the
goroutine just returns.  In both cases the flow table — in particular the
`AnalysisPending` flag — is untouched. -/
def completeDispatch (e : ArgusEngine) (success : Bool) : ArgusEngine :=
  if success then
    { e with stats := { e.stats with analyzedFlows := e.stats.analyzedFlows + 1 } }
  else e

/-- The idle timeout of `removeOldFlows`, in seconds (`5 * time.Minute`). -/
def flowIdleTimeout : ℚ := 300

/-- The sweep of `removeOldFlows` with an explicit timeout: keep exactly the flows
with `¬ (lastSeen < now - timeout)` (Go: delete when `LastSeen.Before(cutoff)` for
`cutoff = now - timeout`). -/
def removeOldFlowsWith (now timeout : ℚ) (flows : List (String × Flow)) :
    List (String × Flow) :=
  flows.filter (fun p => decide (¬ p.2.lastSeen < now - timeout))

/-- Embedding of `(*Engine).removeOldFlows` on the flow table: the sweep with the
hard-coded five-minute timeout.  The Go function returns nothing. -/
def removeOldFlows (now : ℚ) (flows : List (String × Flow)) : List (String × Flow) :=
  removeOldFlowsWith now flowIdleTimeout flows

/-- The number of flows a sweep removes, computable only from table sizes before
and after the sweep — `removeOldFlows` itself does not return it. -/
def removedCount (now : ℚ) (flows : List (String × Flow)) : ℕ :=
  flows.length - (removeOldFlows now flows).length

/-- Embedding of `(*Engine).generateFlowID` on byte strings:
`fmt.Sprintf("%s:%d-%s:%d", srcIP, srcPort, dstIP, dstPort)`.  Strings are byte
lists; 58 is the colon byte and 45 the dash byte; `decRepr` is the decimal
rendering of `%d`. -/
def decRepr (n : ℕ) : List ℕ :=
  if n = 0 then [48] else ((Nat.digits 10 n).map (fun d => d + 48)).reverse

/-- The flow id as the byte string produced by the format string. -/
def generateFlowID (srcIP dstIP : List ℕ) (srcPort dstPort : ℕ) : List ℕ :=
  srcIP ++ 58 :: (decRepr srcPort ++ 45 :: (dstIP ++ 58 :: decRepr dstPort))

end Argus

namespace Race

/-- Interleaving model of `performFlowAnalysis` racing with itself on one flow with
at least `minPackets` packets.  The shared per-flow state is the `AnalysisPending`
flag together with the number of completed analyses of that flow. -/
structure FlowState where
  pending : Bool
  completed : ℕ
deriving DecidableEq

/-- Progress of one analysis cycle with respect to the flow: it has not yet
scanned, it holds an eligibility snapshot (`saw` records whether the flow was in
its eligible list), or it has finished its dispatch step. -/
inductive Phase where
  | idle : Phase
  | scanned : Bool → Phase
  | done : Phase
deriving DecidableEq

/-- Two concurrent analysis cycles over the shared flow state. -/
structure Sys where
  flow : FlowState
  t1 : Phase
  t2 : Phase
deriving DecidableEq

/-- Identifier of one of the two racing cycles. -/
inductive Tid where
  | one : Tid
  | two : Tid
deriving DecidableEq

/-- The two atomic actions of a cycle: the snapshot read of the pending flag under
the read lock (`flowsMu.RLock`, shared, so both scans may precede both marks), and
the mark-pending-and-dispatch step under `flow.mu`, whose dispatched analysis
always terminates in one completed scoring. -/
inductive Act where
  | scan : Act
  | dispatch : Act
deriving DecidableEq

/-- Phase of cycle `t`. -/
def phaseOf (s : Sys) (t : Tid) : Phase :=
  match t with
  | Tid.one => s.t1
  | Tid.two => s.t2

/-- Replace the phase of cycle `t`. -/
def setPhase (s : Sys) (t : Tid) (p : Phase) : Sys :=
  match t with
  | Tid.one => { s with t1 := p }
  | Tid.two => { s with t2 := p }

/-- One interleaved step.  A scan records `!pending` as the eligibility snapshot;
a dispatch by a cycle whose snapshot said eligible sets the pending flag and
yields one completed analysis; a dispatch with a negative snapshot does nothing. -/
def step (s : Sys) (t : Tid) (a : Act) : Sys :=
  match a with
  | Act.scan =>
      match phaseOf s t with
      | Phase.idle => setPhase s t (Phase.scanned (!s.flow.pending))
      | _ => s
  | Act.dispatch =>
      match phaseOf s t with
      | Phase.scanned true =>
          let s1 := setPhase s t Phase.done
          { s1 with flow := { pending := true, completed := s1.flow.completed + 1 } }
      | Phase.scanned false => setPhase s t Phase.done
      | _ => s

/-- Run a schedule of interleaved steps. -/
def run (s : Sys) (sched : List (Tid × Act)) : Sys :=
  sched.foldl (fun s ta => step s ta.1 ta.2) s

/-- Both cycles pending-free and unscanned, flow not yet analysed. -/
def initSys : Sys :=
  { flow := { pending := false, completed := 0 }, t1 := Phase.idle, t2 := Phase.idle }

/-- The racing schedule: both cycles scan before either marks the flow pending. -/
def scheduleBoth : List (Tid × Act) :=
  [(Tid.one, Act.scan), (Tid.two, Act.scan), (Tid.one, Act.dispatch), (Tid.two, Act.dispatch)]

/-- No cycle holds a stale positive eligibility snapshot. -/
def noStaleSnapshot (s : Sys) : Prop :=
  s.t1 ≠ Phase.scanned true ∧ s.t2 ≠ Phase.scanned true

instance (s : Sys) : Decidable (noStaleSnapshot s) := by
  unfold noStaleSnapshot; infer_instance

/-- A state in which the flow was analysed once, the first cycle is finished and
the second has not yet scanned. -/
def pendingSys : Sys :=
  { flow := { pending := true, completed := 1 }, t1 := Phase.done, t2 := Phase.idle }

end Race

namespace ML

/-- Logistic squashing `1 / (1 + math.Exp(-z))` used by the trained SVM and the
network output layer. -/
noncomputable def sigmoid (z : ℝ) : ℝ := 1 / (1 + Real.exp (-z))

/-- Dot product of two float vectors (`mat.Dot` / the weight-row products). -/
noncomputable def dot (a b : List ℝ) : ℝ := (List.zipWith (fun x y => x * y) a b).sum

/-- Per-index score increment of the loop body of `(*MLEngine).simulatePrediction`:
`+0.1` when an early feature exceeds `0.7`, when a feature in `[10,20)` is below
`0.3`, or when a feature in `[20,30)` is within `0.1` of `0.5`. -/
noncomputable def bump (i : ℕ) (f : ℝ) : ℝ :=
  (if i < 10 ∧ 7/10 < f then (1 : ℝ)/10 else 0)
    + (if 10 ≤ i ∧ i < 20 ∧ f < 3/10 then (1 : ℝ)/10 else 0)
    + (if 20 ≤ i ∧ i < 30 ∧ |f - 1/2| < 1/10 then (1 : ℝ)/10 else 0)

/-- Embedding of `(*MLEngine).simulatePrediction`: accumulate the heuristic score
over the indexed features and clamp with `math.Min(score, 1.0)`. -/
noncomputable def simulatePrediction (features : List ℝ) : ℝ :=
  min ((features.enum.map (fun p => bump p.1 p.2)).sum) 1

/-- The Gonum-based SVM classifier (`SVMClassifier`). -/
structure SVMClassifier where
  weights : List ℝ
  bias : ℝ
  trained : Bool

/-- The Gorgonia network of `initializeNeuralNetwork`, by its mathematical content:
hidden layer `ReLU(x·W1 + b1)` followed by `sigmoid(h·W2 + b2)`.  `hiddenWeights`
lists the columns of the 128x64 hidden weight matrix. -/
structure NeuralNetwork where
  hiddenWeights : List (List ℝ)
  hiddenBias : List ℝ
  outputWeights : List ℝ
  outputBias : ℝ
  trained : Bool

/-- Rectifier. -/
noncomputable def relu (x : ℝ) : ℝ := max x 0

/-- Forward pass of the trained network (the graph built by
`initializeNeuralNetwork`, executed by `predictNeuralNetwork`). -/
noncomputable def nnForward (nn : NeuralNetwork) (features : List ℝ) : ℝ :=
  let hidden := List.zipWith (fun c b => relu (dot features c + b)) nn.hiddenWeights nn.hiddenBias
  sigmoid (dot hidden nn.outputWeights + nn.outputBias)

/-- Embedding of `(*MLEngine).predictNeuralNetwork`: untrained models fall back to
the heuristic `simulatePrediction`; trained models run the forward pass. -/
noncomputable def predictNeuralNetwork (nn : NeuralNetwork) (features : List ℝ) : ℝ :=
  if nn.trained then nnForward nn features else simulatePrediction features

/-- Embedding of `(*MLEngine).predictSVM`: untrained models fall back to the
heuristic; trained models return `sigmoid(w . x + b)`. -/
noncomputable def predictSVM (m : SVMClassifier) (features : List ℝ) : ℝ :=
  if m.trained then sigmoid (dot m.weights features + m.bias)
  else simulatePrediction features

/-- The configured model type (`MLConfig.ModelType` restricted to the three values
accepted by `initializeModels`; any other value is rejected at construction). -/
inductive ModelType where
  | neuralNetwork : ModelType
  | svmModel : ModelType
  | ensemble : ModelType
deriving DecidableEq

/-- The ML engine state relevant to prediction. -/
structure MLEngine where
  modelType : ModelType
  nn : NeuralNetwork
  svm : SVMClassifier

/-- Embedding of `(*MLEngine).predictEnsemble`: collect the (always successful)
neural-network and SVM predictions and average them; the empty-list fallback to
the heuristic is kept from the source. -/
noncomputable def predictEnsemble (e : MLEngine) (features : List ℝ) : ℝ :=
  let predictions : List ℝ :=
    [predictNeuralNetwork e.nn features, predictSVM e.svm features]
  if predictions.length = 0 then simulatePrediction features
  else predictions.sum / (predictions.length : ℝ)

/-- The confidence computed by `(*MLEngine).Predict` for each model type. -/
noncomputable def predictConfidence (e : MLEngine) (features : List ℝ) : ℝ :=
  match e.modelType with
  | ModelType.neuralNetwork => predictNeuralNetwork e.nn features
  | ModelType.svmModel => predictSVM e.svm features
  | ModelType.ensemble => predictEnsemble e features

/-- A freshly initialised ensemble engine: both sub-backends untrained. -/
noncomputable def exMLEngine : MLEngine :=
  { modelType := ModelType.ensemble
    nn := { hiddenWeights := [], hiddenBias := [], outputWeights := []
            outputBias := 0, trained := false }
    svm := { weights := [], bias := 0, trained := false } }

end ML

namespace Argus

/-- A one-packet flow used as concrete input. -/
def exFlow : Flow :=
  { id := "f", packets := [{ timestamp := 0, size := 100 }]
    startTime := 0, lastSeen := 0, analysisPending := false }

/-- A ten-packet flow eligible for analysis. -/
def exFlow10 : Flow :=
  { id := "f", packets := List.replicate 10 { timestamp := 0, size := 100 }
    startTime := 0, lastSeen := 0, analysisPending := false }

/-- `exFlow10` after `performFlowAnalysis` marked it pending. -/
def exFlow10Marked : Flow := { exFlow10 with analysisPending := true }

/-- An engine holding the single eligible flow `exFlow10`. -/
def exEngine : ArgusEngine :=
  { flows := [("f", exFlow10)]
    stats := { totalPackets := 0, activeFlows := 0, analyzedFlows := 0 } }

/-- A stale flow last seen at time 0. -/
def staleFlow : Flow :=
  { id := "a", packets := [], startTime := 0, lastSeen := 0, analysisPending := false }

/-- A one-entry table of stale flows. -/
def exTable1 : List (String × Flow) := [("a", staleFlow)]

/-- A two-entry table of stale flows. -/
def exTable2 : List (String × Flow) := [("a", staleFlow), ("b", staleFlow)]

end Argus

namespace Cortex

/-- Three concrete results with confidences 0.9, 0.3 and 0.8. -/
def exResults : List DetectionResult :=
  [{ isBot := true, confidence := 9/10, features := [], reasoning := ""
     timestamp := 0, flowID := "a" },
   { isBot := false, confidence := 3/10, features := [], reasoning := ""
     timestamp := 0, flowID := "b" },
   { isBot := true, confidence := 8/10, features := [], reasoning := ""
     timestamp := 0, flowID := "c" }]

lemma updateStats_total (s : Statistics) (r : DetectionResult) :
    (updateStats s r).totalInferences = s.totalInferences + 1 := rfl

lemma updateStats_avg_mul (s : Statistics) (r : DetectionResult)
    (h : 0 ≤ s.totalInferences) :
    (updateStats s r).averageConfidence * ((s.totalInferences : ℚ) + 1)
      = s.averageConfidence * (s.totalInferences : ℚ) + r.confidence := by
  have h0 : (0 : ℚ) ≤ (s.totalInferences : ℚ) := by exact_mod_cast h
  have hne : ((s.totalInferences : ℚ) + 1) ≠ 0 := by
    exact ne_of_gt (by linarith)
  show (s.averageConfidence * (((s.totalInferences + 1 : ℤ) : ℚ) - 1) + r.confidence) /
      ((s.totalInferences + 1 : ℤ) : ℚ) * ((s.totalInferences : ℚ) + 1)
      = s.averageConfidence * (s.totalInferences : ℚ) + r.confidence
  push_cast
  field_simp

lemma foldl_updateStats_total (rs : List DetectionResult) (s : Statistics) :
    (rs.foldl updateStats s).totalInferences = s.totalInferences + rs.length := by
  induction rs generalizing s with
  | nil => simp
  | cons r rs ih =>
      simp only [List.foldl_cons, ih, updateStats_total, List.length_cons]
      push_cast
      ring

lemma foldl_updateStats_avg_mul (rs : List DetectionResult) (s : Statistics)
    (h : 0 ≤ s.totalInferences) :
    (rs.foldl updateStats s).averageConfidence * ((s.totalInferences : ℚ) + (rs.length : ℚ))
      = s.averageConfidence * (s.totalInferences : ℚ)
        + (rs.map (fun r => r.confidence)).sum := by
  induction rs generalizing s with
  | nil => simp
  | cons r rs ih =>
      have h1 : 0 ≤ (updateStats s r).totalInferences := by
        rw [updateStats_total]; omega
      have step := updateStats_avg_mul s r h
      have tail := ih (updateStats s r) h1
      rw [updateStats_total] at tail
      push_cast at tail
      simp only [List.foldl_cons, List.map_cons, List.sum_cons, List.length_cons]
      push_cast
      calc (List.foldl updateStats (updateStats s r) rs).averageConfidence *
              ((s.totalInferences : ℚ) + ((rs.length : ℚ) + 1))
          = (List.foldl updateStats (updateStats s r) rs).averageConfidence *
              (((s.totalInferences : ℚ) + 1) + (rs.length : ℚ)) := by ring
        _ = (updateStats s r).averageConfidence * ((s.totalInferences : ℚ) + 1)
              + (List.map (fun r => r.confidence) rs).sum := tail
        _ = s.averageConfidence * (s.totalInferences : ℚ) + r.confidence
              + (List.map (fun r => r.confidence) rs).sum := by rw [step]
        _ = s.averageConfidence * (s.totalInferences : ℚ)
              + (r.confidence + (List.map (fun r => r.confidence) rs).sum) := by ring

/-- C5: the statistics invariant `botCount + humanCount = totalInferences`, with
all counters non-negative, holds in the zero-initialised state and is preserved by
every `updateStats`, which increments `totalInferences` by one and exactly one of
the two detection counters according to `isBot`. -/
theorem statsInvariant_init_and_preserved :
    statsInvariant initStats ∧
      ∀ (s : Statistics) (r : DetectionResult),
        statsInvariant s → statsInvariant (updateStats s r) := by
  constructor
  · exact ⟨rfl, le_refl 0, le_refl 0⟩
  · intro s r h
    obtain ⟨h1, h2, h3⟩ := h
    refine ⟨?_, ?_, ?_⟩ <;> simp only [updateStats] <;> split <;> omega

/-- Witness for C5 at a concrete state and result. -/
theorem statsInvariant_init_and_preserved_witness :
    statsInvariant
      (updateStats initStats
        { isBot := true, confidence := 9/10, features := [], reasoning := ""
          timestamp := 0, flowID := "f" }) :=
  statsInvariant_init_and_preserved.2 _ _ (by decide)

/-- C4: after feeding any non-empty sequence of results, the running average
confidence maintained by `updateStats` equals the arithmetic mean of the
confidences. -/
theorem updateStats_running_average (rs : List DetectionResult) (h : rs ≠ []) :
    (rs.foldl updateStats initStats).averageConfidence
      = (rs.map (fun r => r.confidence)).sum / (rs.length : ℚ) := by
  have hlen0 : rs.length ≠ 0 := by simpa [List.length_eq_zero] using h
  have hlen : (rs.length : ℚ) ≠ 0 := Nat.cast_ne_zero.mpr hlen0
  have key := foldl_updateStats_avg_mul rs initStats (by norm_num [initStats])
  simp only [initStats] at key
  push_cast at key
  rw [eq_div_iff hlen]
  simpa using key

/-- Witness for C4: confidences 0.9, 0.3, 0.8 yield average (0.9+0.3+0.8)/3 = 2/3. -/
theorem updateStats_running_average_witness :
    exResults ≠ [] ∧
      (exResults.foldl updateStats initStats).averageConfidence
        = (exResults.map (fun r => r.confidence)).sum / (exResults.length : ℚ) :=
  ⟨by decide, updateStats_running_average exResults (by decide)⟩

/-- C7: `Analyze` on an engine as constructed by `NewEngine` returns no result
exactly when the feature-vector length differs from the model input size 128, and
such a rejection leaves the engine — its statistics included — unchanged. -/
theorem Analyze_rejects_iff_length (cfg : CortexConfig) (stats : Statistics)
    (noise : ℕ) (ts : ℚ) (features : List ℚ) (fid : String) :
    ((Analyze (engineWith cfg stats) noise ts features fid).1 = none
        ↔ features.length ≠ 128) ∧
      (features.length ≠ 128 →
        (Analyze (engineWith cfg stats) noise ts features fid).2
          = engineWith cfg stats) := by
  unfold Analyze engineWith loadModel
  by_cases h : features.length = 128 <;> simp [h]

/-- Witness for C7 at the empty feature vector. -/
theorem Analyze_rejects_iff_length_witness :
    ([] : List ℚ).length ≠ 128 ∧
      (Analyze (engineWith { modelPath := "m", detectionThreshold := 1/2 } initStats)
          0 0 [] "f").2
        = engineWith { modelPath := "m", detectionThreshold := 1/2 } initStats :=
  ⟨by decide,
    (Analyze_rejects_iff_length { modelPath := "m", detectionThreshold := 1/2 }
      initStats 0 0 [] "f").2 (by decide)⟩

end Cortex

namespace Argus

lemma extractFeatures_length (flow : Flow) : (extractFeatures flow).length = 128 := by
  unfold extractFeatures
  split <;> simp

lemma extractFeatures_getD (flow : Flow) (h : flow.packets.length ≠ 0) (i : ℕ)
    (hi : i < 128) :
    (extractFeatures flow).getD i 0
      = if rawFeature flow i = 0 then fillerValue i else rawFeature flow i := by
  unfold extractFeatures
  rw [if_neg h, List.getD_eq_getElem?_getD, List.getElem?_map, List.getElem?_range hi]
  rfl

lemma rawFeature_20 (flow : Flow) : rawFeature flow 20 = (flow.packets.length : ℚ) := by
  norm_num [rawFeature]

lemma rawFeature_other (flow : Flow) (i : ℕ) (h0 : i ≠ 0) (h10 : i ≠ 10)
    (h20 : i ≠ 20) (h21 : i ≠ 21) : rawFeature flow i = 0 := by
  simp [rawFeature, h0, h10, h20, h21]

/-- C2 (amended): for a flow with at least one packet the extracted vector always
has length 128 and is never all-zero (slot 20 holds the packet count), and every
slot outside the computed ones (0, 10, 20, 21) is set to the deterministic filler
`(i % 10)/10` of its index — which is zero whenever `i` is divisible by 10, not a
non-zero function of the index. -/
theorem extractFeatures_policy (flow : Flow) (h : flow.packets ≠ []) :
    (extractFeatures flow).length = 128 ∧
      (extractFeatures flow).getD 20 0 = (flow.packets.length : ℚ) ∧
      extractFeatures flow ≠ List.replicate 128 (0 : ℚ) ∧
      ∀ i, i < 128 → i ≠ 0 → i ≠ 10 → i ≠ 20 → i ≠ 21 →
        (extractFeatures flow).getD i 0 = fillerValue i := by
  have hlen : flow.packets.length ≠ 0 := by simpa [List.length_eq_zero] using h
  have hcast : (flow.packets.length : ℚ) ≠ 0 := Nat.cast_ne_zero.mpr hlen
  have h20 : (extractFeatures flow).getD 20 0 = (flow.packets.length : ℚ) := by
    rw [extractFeatures_getD flow hlen 20 (by norm_num), rawFeature_20, if_neg hcast]
  refine ⟨extractFeatures_length flow, h20, ?_, ?_⟩
  · intro heq
    have h0 : (extractFeatures flow).getD 20 0 = 0 := by
      rw [heq]
      decide
    exact hcast (h20.symm.trans h0)
  · intro i hi hi0 hi10 hi20 hi21
    rw [extractFeatures_getD flow hlen i hi,
      rawFeature_other flow i hi0 hi10 hi20 hi21, if_pos rfl]

/-- Witness for C2 (amended) at the concrete one-packet flow `exFlow`. -/
theorem extractFeatures_policy_witness :
    exFlow.packets ≠ [] ∧
      (extractFeatures exFlow).getD 20 0 = (exFlow.packets.length : ℚ) :=
  ⟨by decide, (extractFeatures_policy exFlow (by decide)).2.1⟩

/-- Counterexample for C2 as stated: slot 30 of the features of the live flow
`exFlow` is not assigned any computed value (its raw value is the default 0), yet
its final value is 0, because the filler `(30 % 10)/10` vanishes — the filler is
not a non-zero function of the index. -/
theorem extractFeatures_zero_filler_cex :
    rawFeature exFlow 30 = 0 ∧ (extractFeatures exFlow).getD 30 0 = 0 := by
  refine ⟨by norm_num [rawFeature], ?_⟩
  rw [extractFeatures_getD exFlow (by decide) 30 (by norm_num)]
  norm_num [rawFeature, fillerValue]

/-- C1 (amended): completion of a dispatched scoring — successful or not — never
touches the flow table, in particular it never clears `AnalysisPending` (the code
has no clearing path), and after `performFlowAnalysis` every flow in the table is
ineligible: the flows that were eligible have just been marked pending and remain
so, so a dispatched flow is never re-selected by a later cycle. -/
theorem pending_never_cleared (e : ArgusEngine) (success : Bool) :
    (completeDispatch e success).flows = e.flows ∧
      ∀ p ∈ (performFlowAnalysis e).1.flows, eligibleFlow p.2 = false := by
  constructor
  · unfold completeDispatch
    split <;> rfl
  · intro p hp
    unfold performFlowAnalysis at hp
    simp only [List.mem_map] at hp
    obtain ⟨q, hq, rfl⟩ := hp
    by_cases helig : eligibleFlow q.2 = true
    · rw [if_pos helig]
      simp [eligibleFlow]
    · rw [if_neg helig]
      exact Bool.eq_false_iff.mpr helig

/-- Witness for C1 (amended): the marked example flow is ineligible. -/
theorem pending_never_cleared_witness : eligibleFlow exFlow10Marked = false :=
  (pending_never_cleared exEngine true).2 ("f", exFlow10Marked) (by decide)

/-- Counterexample for C1 as stated: after the cycle dispatches the eligible flow
of `exEngine` and its scoring completes (with a recorded result or with a backend
error), the pending flag is still set — the flow table holds the marked flow — and
the next analysis cycle dispatches nothing, so the flow is never re-selected. -/
theorem pending_never_cleared_cex :
    (completeDispatch (performFlowAnalysis exEngine).1 true).flows
        = [("f", exFlow10Marked)] ∧
      (completeDispatch (performFlowAnalysis exEngine).1 false).flows
        = [("f", exFlow10Marked)] ∧
      (performFlowAnalysis (completeDispatch (performFlowAnalysis exEngine).1 true)).2
        = [] := by
  decide

/-- C8 (amended): the sweep keeps exactly the flows with `now - lastSeen` not
exceeding the timeout, so a flow last seen at `T` is still present when swept at
`T + D - ε` and absent after a sweep at `T + D + ε`; the removed count is not
returned by the sweep. -/
theorem removeOldFlows_exact :
    (∀ (now timeout : ℚ) (flows : List (String × Flow)) (fid : String) (f : Flow),
        ((fid, f) ∈ removeOldFlowsWith now timeout flows ↔
          (fid, f) ∈ flows ∧ ¬ timeout < now - f.lastSeen)) ∧
      ∀ (fid : String) (f : Flow) (T D ε : ℚ), f.lastSeen = T → 0 < ε →
        ((fid, f) ∈ removeOldFlowsWith (T + D - ε) D [(fid, f)] ∧
          (fid, f) ∉ removeOldFlowsWith (T + D + ε) D [(fid, f)]) := by
  have hmem : ∀ (now timeout : ℚ) (flows : List (String × Flow)) (fid : String)
      (f : Flow),
      ((fid, f) ∈ removeOldFlowsWith now timeout flows ↔
        (fid, f) ∈ flows ∧ ¬ timeout < now - f.lastSeen) := by
    intro now timeout flows fid f
    unfold removeOldFlowsWith
    rw [List.mem_filter]
    simp only [decide_eq_true_eq]
    constructor
    · rintro ⟨h1, h2⟩
      exact ⟨h1, fun hc => h2 (by linarith)⟩
    · rintro ⟨h1, h2⟩
      exact ⟨h1, fun hc => h2 (by linarith)⟩
  refine ⟨hmem, ?_⟩
  intro fid f T D ε hT hε
  constructor
  · rw [hmem]
    refine ⟨by simp, ?_⟩
    rw [hT]
    intro hc
    linarith
  · rw [hmem]
    rintro ⟨-, h2⟩
    rw [hT] at h2
    apply h2
    linarith

/-- Witness for C8 (amended) at `T = 0`, `D = 300`, `ε = 1`. -/
theorem removeOldFlows_exact_witness :
    ("a", staleFlow) ∈ removeOldFlowsWith (0 + 300 - 1) 300 [("a", staleFlow)] ∧
      ("a", staleFlow) ∉ removeOldFlowsWith (0 + 300 + 1) 300 [("a", staleFlow)] :=
  removeOldFlows_exact.2 "a" staleFlow 0 300 1 rfl (by norm_num)

/-- Counterexample for C8 as stated: two sweeps with identical results remove
different numbers of flows, so the sweep's return value does not carry the count
of flows removed (the Go function indeed returns nothing). -/
theorem removeOldFlows_no_count_cex :
    removeOldFlows 1000 exTable1 = removeOldFlows 1000 exTable2 ∧
      removedCount 1000 exTable1 ≠ removedCount 1000 exTable2 := by
  have h1 : removeOldFlows 1000 exTable1 = [] := by
    simp only [removeOldFlows, removeOldFlowsWith, exTable1, staleFlow, flowIdleTimeout,
      List.filter, decide_eq_true_eq]
    norm_num
  have h2 : removeOldFlows 1000 exTable2 = [] := by
    simp only [removeOldFlows, removeOldFlowsWith, exTable2, staleFlow, flowIdleTimeout,
      List.filter, decide_eq_true_eq]
    norm_num
  refine ⟨by rw [h1, h2], ?_⟩
  unfold removedCount
  rw [h1, h2]
  decide

lemma append_sep_inj {α : Type} (c : α) :
    ∀ (a1 a2 r1 r2 : List α), c ∉ a1 → c ∉ a2 →
      a1 ++ c :: r1 = a2 ++ c :: r2 → a1 = a2 ∧ r1 = r2 := by
  intro a1
  induction a1 with
  | nil =>
      intro a2 r1 r2 _ h2 h
      cases a2 with
      | nil => simpa using h
      | cons x t =>
          simp only [List.nil_append, List.cons_append, List.cons.injEq] at h
          obtain ⟨rfl, -⟩ := h
          exact absurd (List.mem_cons_self c t) h2
  | cons x t ih =>
      intro a2 r1 r2 h1 h2 h
      cases a2 with
      | nil =>
          simp only [List.cons_append, List.nil_append, List.cons.injEq] at h
          obtain ⟨rfl, -⟩ := h
          exact absurd (List.mem_cons_self x t) h1
      | cons y u =>
          simp only [List.cons_append, List.cons.injEq] at h
          obtain ⟨rfl, htail⟩ := h
          have hrec := ih u r1 r2 (fun hm => h1 (List.mem_cons_of_mem _ hm))
            (fun hm => h2 (List.mem_cons_of_mem _ hm)) htail
          exact ⟨by rw [hrec.1], hrec.2⟩

lemma decRepr_mem (n : ℕ) : ∀ x ∈ decRepr n, 48 ≤ x ∧ x ≤ 57 := by
  intro x hx
  unfold decRepr at hx
  split at hx
  · simp only [List.mem_singleton] at hx
    omega
  · simp only [List.mem_reverse, List.mem_map] at hx
    obtain ⟨d, hd, rfl⟩ := hx
    have hlt : d < 10 := Nat.digits_lt_base (by norm_num) hd
    omega

lemma decRepr_injective : Function.Injective decRepr := by
  have key : ∀ n : ℕ, n ≠ 0 → decRepr n ≠ [48] := by
    intro n hn hcontra
    rw [decRepr, if_neg hn] at hcontra
    have hmap : (Nat.digits 10 n).map (fun d => d + 48) = [48] := by
      have := congrArg List.reverse hcontra
      simpa using this
    cases hdig : Nat.digits 10 n with
    | nil =>
        rw [hdig] at hmap
        simp at hmap
    | cons d ds =>
        rw [hdig] at hmap
        simp only [List.map_cons, List.cons.injEq, List.map_eq_nil_iff] at hmap
        have hd48 : d + 48 = 48 := by simpa using hmap.1
        have hd0 : d = 0 := by omega
        have hofd := Nat.ofDigits_digits 10 n
        rw [hdig, hmap.2, hd0] at hofd
        simp [Nat.ofDigits] at hofd
        exact hn hofd.symm
  have h0 : decRepr 0 = [48] := by simp [decRepr]
  intro m n h
  by_cases hm : m = 0 <;> by_cases hn : n = 0
  · omega
  · subst hm
    rw [h0] at h
    exact absurd h.symm (key n hn)
  · subst hn
    rw [h0] at h
    exact absurd h (key m hm)
  · rw [decRepr, if_neg hm, decRepr, if_neg hn] at h
    have hmap := List.reverse_injective h
    have hdig : Nat.digits 10 m = Nat.digits 10 n := by
      have hinj : Function.Injective (fun d : ℕ => d + 48) := by
        intro a b hab
        have hab2 : a + 48 = b + 48 := hab
        omega
      exact List.map_injective_iff.mpr hinj hmap
    calc m = Nat.ofDigits 10 (Nat.digits 10 m) := (Nat.ofDigits_digits 10 m).symm
      _ = Nat.ofDigits 10 (Nat.digits 10 n) := by rw [hdig]
      _ = n := Nat.ofDigits_digits 10 n

/-- C9 (amended): flow-id generation is a pure function — repeated application to
the same 4-tuple yields the same id — and it is injective on 4-tuples whose two
address strings contain no colon byte (as for the dotted-quad IPv4 addresses the
engine handles): any difference in a component, including swapping source with
destination, changes the id. -/
theorem generateFlowID_pure_injective (s1 d1 : List ℕ) (p1 q1 : ℕ)
    (s2 d2 : List ℕ) (p2 q2 : ℕ)
    (hs1 : 58 ∉ s1) (hs2 : 58 ∉ s2) (hd1 : 58 ∉ d1) (hd2 : 58 ∉ d2) :
    generateFlowID s1 d1 p1 q1 = generateFlowID s1 d1 p1 q1 ∧
      (generateFlowID s1 d1 p1 q1 = generateFlowID s2 d2 p2 q2 →
        s1 = s2 ∧ d1 = d2 ∧ p1 = p2 ∧ q1 = q2) := by
  refine ⟨rfl, ?_⟩
  intro h
  unfold generateFlowID at h
  obtain ⟨hs, h⟩ := append_sep_inj 58 s1 s2 _ _ hs1 hs2 h
  have hp1 : (45 : ℕ) ∉ decRepr p1 := fun hm => by
    have := decRepr_mem p1 45 hm; omega
  have hp2 : (45 : ℕ) ∉ decRepr p2 := fun hm => by
    have := decRepr_mem p2 45 hm; omega
  obtain ⟨hp, h⟩ := append_sep_inj 45 _ _ _ _ hp1 hp2 h
  obtain ⟨hd, hq⟩ := append_sep_inj 58 d1 d2 _ _ hd1 hd2 h
  exact ⟨hs, hd, decRepr_injective hp, decRepr_injective hq⟩

/-- Witness for C9 (amended) on the colon-free addresses "1" and "2". -/
theorem generateFlowID_pure_injective_witness :
    generateFlowID [49] [50] 1 2 = generateFlowID [49] [50] 1 2 :=
  (generateFlowID_pure_injective [49] [50] 1 2 [49] [50] 1 2
    (by decide) (by decide) (by decide) (by decide)).1

/-- Counterexample for C9 as stated: over arbitrary address strings the id is not
injective.  The distinct 4-tuples ("x", 1, "y:1-z", 2) and ("x:1-y", 1, "z", 2)
(bytes: 120 = x, 121 = y, 122 = z, 58 = colon, 45 = dash, 49 = 1) collide. -/
theorem generateFlowID_collision_cex :
    generateFlowID [120] [121, 58, 49, 45, 122] 1 2
        = generateFlowID [120, 58, 49, 45, 121] [122] 1 2 ∧
      ([120] : List ℕ) ≠ [120, 58, 49, 45, 121] := by
  have h1 : decRepr 1 = [49] := by
    rw [decRepr, if_neg (by norm_num)]
    norm_num
  have h2 : decRepr 2 = [50] := by
    rw [decRepr, if_neg (by norm_num)]
    norm_num
  refine ⟨?_, by decide⟩
  unfold generateFlowID
  rw [h1, h2]
  rfl

end Argus

namespace Race

lemma step_preserves (s : Sys) (t : Tid) (a : Act) (hp : s.flow.pending = true)
    (hns : noStaleSnapshot s) :
    (step s t a).flow = s.flow ∧ noStaleSnapshot (step s t a) := by
  obtain ⟨h1, h2⟩ := hns
  cases t with
  | one =>
      cases a with
      | scan =>
          cases ht : s.t1 with
          | idle => simp_all [step, phaseOf, setPhase, noStaleSnapshot]
          | scanned b => simp_all [step, phaseOf, noStaleSnapshot]
          | done => simp_all [step, phaseOf, noStaleSnapshot]
      | dispatch =>
          cases ht : s.t1 with
          | idle => simp_all [step, phaseOf, noStaleSnapshot]
          | scanned b =>
              cases b with
              | false => simp_all [step, phaseOf, setPhase, noStaleSnapshot]
              | true => exact absurd ht h1
          | done => simp_all [step, phaseOf, noStaleSnapshot]
  | two =>
      cases a with
      | scan =>
          cases ht : s.t2 with
          | idle => simp_all [step, phaseOf, setPhase, noStaleSnapshot]
          | scanned b => simp_all [step, phaseOf, noStaleSnapshot]
          | done => simp_all [step, phaseOf, noStaleSnapshot]
      | dispatch =>
          cases ht : s.t2 with
          | idle => simp_all [step, phaseOf, noStaleSnapshot]
          | scanned b =>
              cases b with
              | false => simp_all [step, phaseOf, setPhase, noStaleSnapshot]
              | true => exact absurd ht h2
          | done => simp_all [step, phaseOf, noStaleSnapshot]

lemma run_flow_frozen (sched : List (Tid × Act)) (s : Sys)
    (hp : s.flow.pending = true) (hns : noStaleSnapshot s) :
    (run s sched).flow = s.flow := by
  induction sched generalizing s with
  | nil => rfl
  | cons ta rest ih =>
      have h := step_preserves s ta.1 ta.2 hp hns
      have htail := ih (step s ta.1 ta.2) (by rw [h.1]; exact hp) h.2
      calc (run s (ta :: rest)).flow = (run (step s ta.1 ta.2) rest).flow := rfl
        _ = (step s ta.1 ta.2).flow := htail
        _ = s.flow := h.1

/-- C10 (amended): while the flow's pending flag is set and no cycle still holds a
stale positive eligibility snapshot, no interleaving of further scans and
dispatches completes another analysis of the flow — a scan performed while the
flag is set never returns the flow as eligible.  The guarantee breaks only for
snapshots taken before the flag was set, as the counterexample shows. -/
theorem no_dispatch_while_pending (s : Sys) (sched : List (Tid × Act))
    (hp : s.flow.pending = true) (hns : noStaleSnapshot s) :
    (run s sched).flow.completed = s.flow.completed ∧
      (run s sched).flow.pending = true := by
  rw [run_flow_frozen sched s hp hns]
  exact ⟨rfl, hp⟩

/-- Witness for C10 (amended): a late second cycle adds no completion. -/
theorem no_dispatch_while_pending_witness :
    (run pendingSys [(Tid.two, Act.scan), (Tid.two, Act.dispatch)]).flow.completed
        = pendingSys.flow.completed ∧
      (run pendingSys [(Tid.two, Act.scan), (Tid.two, Act.dispatch)]).flow.pending
        = true :=
  no_dispatch_while_pending pendingSys [(Tid.two, Act.scan), (Tid.two, Act.dispatch)]
    rfl (by decide)

/-- Counterexample for C10 as stated: when both cycles scan before either
dispatches — realizable because both eligibility scans run under the shared read
lock before any flow is marked — the same flow is dispatched twice and two
analyses complete, although the flow never became eligible again in between. -/
theorem double_dispatch_cex :
    (run initSys scheduleBoth).flow.completed = 2 ∧
      (run initSys scheduleBoth).flow.pending = true := by
  decide

end Race

namespace Cortex

lemma simulateInference_mem (noise : ℕ) (features : List ℚ) :
    0 ≤ (simulateInference noise features).1 ∧ (simulateInference noise features).1 ≤ 1 := by
  have hn1 : ((noise % 100 : ℕ) : ℚ) ≤ 99 := by
    exact_mod_cast Nat.le_of_lt_succ (Nat.mod_lt _ (by norm_num))
  have hd0 : 0 ≤ ((noise % 100 : ℕ) : ℚ) / 1000 := by positivity
  have hd1 : ((noise % 100 : ℕ) : ℚ) / 1000 ≤ 99 / 1000 :=
    (div_le_div_right (by norm_num)).mpr hn1
  constructor <;> simp only [simulateInference] <;> split_ifs <;> linarith

end Cortex

namespace ML

lemma sigmoid_mem (z : ℝ) : 0 ≤ sigmoid z ∧ sigmoid z ≤ 1 := by
  have h1 : 0 < Real.exp (-z) := Real.exp_pos _
  have h2 : 0 < 1 + Real.exp (-z) := by linarith
  unfold sigmoid
  constructor
  · positivity
  · rw [div_le_one h2]
    linarith

lemma bump_nonneg (i : ℕ) (f : ℝ) : 0 ≤ bump i f := by
  unfold bump
  split_ifs <;> norm_num

lemma simulatePrediction_mem (features : List ℝ) :
    0 ≤ simulatePrediction features ∧ simulatePrediction features ≤ 1 := by
  unfold simulatePrediction
  refine ⟨le_min ?_ zero_le_one, min_le_right _ _⟩
  apply List.sum_nonneg
  intro x hx
  simp only [List.mem_map] at hx
  obtain ⟨p, hp, rfl⟩ := hx
  exact bump_nonneg p.1 p.2

lemma predictNeuralNetwork_mem (nn : NeuralNetwork) (features : List ℝ) :
    0 ≤ predictNeuralNetwork nn features ∧ predictNeuralNetwork nn features ≤ 1 := by
  unfold predictNeuralNetwork nnForward
  split
  · exact sigmoid_mem _
  · exact simulatePrediction_mem features

lemma predictSVM_mem (m : SVMClassifier) (features : List ℝ) :
    0 ≤ predictSVM m features ∧ predictSVM m features ≤ 1 := by
  unfold predictSVM
  split
  · exact sigmoid_mem _
  · exact simulatePrediction_mem features

lemma predictEnsemble_mem (e : MLEngine) (features : List ℝ) :
    0 ≤ predictEnsemble e features ∧ predictEnsemble e features ≤ 1 := by
  obtain ⟨ha0, ha1⟩ := predictNeuralNetwork_mem e.nn features
  obtain ⟨hb0, hb1⟩ := predictSVM_mem e.svm features
  unfold predictEnsemble
  norm_num
  constructor
  · positivity
  · rw [div_le_one (by norm_num : (0:ℝ) < 2)]
    linarith

/-- C3: for feature vectors of the configured length 128 the predicted confidence
of every backend variant — heuristic fallback when untrained, trained SVM sigmoid,
trained neural network forward pass, ensemble average — lies in the closed
interval from 0 to 1; so does the score of the cortex simulated inference that
`Analyze` records. -/
theorem predict_confidence_in_unit_interval (e : MLEngine) (features : List ℝ)
    (noise : ℕ) (qfeatures : List ℚ)
    (h : features.length = 128) (hq : qfeatures.length = 128) :
    (0 ≤ predictConfidence e features ∧ predictConfidence e features ≤ 1) ∧
      (0 ≤ (Cortex.simulateInference noise qfeatures).1 ∧
        (Cortex.simulateInference noise qfeatures).1 ≤ 1) := by
  refine ⟨?_, Cortex.simulateInference_mem noise qfeatures⟩
  obtain ⟨mt, nn, svm⟩ := e
  cases mt with
  | neuralNetwork => exact predictNeuralNetwork_mem nn features
  | svmModel => exact predictSVM_mem svm features
  | ensemble => exact predictEnsemble_mem ⟨ModelType.ensemble, nn, svm⟩ features

/-- Witness for C3 on the all-zero length-128 vector and the untrained ensemble. -/
theorem predict_confidence_in_unit_interval_witness :
    (List.replicate 128 (0 : ℝ)).length = 128 ∧
      (0 ≤ predictConfidence exMLEngine (List.replicate 128 (0 : ℝ)) ∧
        predictConfidence exMLEngine (List.replicate 128 (0 : ℝ)) ≤ 1) :=
  ⟨by simp,
    (predict_confidence_in_unit_interval exMLEngine (List.replicate 128 (0 : ℝ)) 0
      (List.replicate 128 (0 : ℚ)) (by simp) (by simp)).1⟩

/-- C6: when no sub-backend reports trained, the ensemble prediction equals the
heuristic prediction on the same input exactly — the untrained status is absorbed
by the fallback, never surfaced as an error. -/
theorem predictEnsemble_fallback (e : MLEngine) (features : List ℝ)
    (hnn : e.nn.trained = false) (hsvm : e.svm.trained = false) :
    predictEnsemble e features = simulatePrediction features := by
  unfold predictEnsemble predictNeuralNetwork predictSVM
  rw [hnn, hsvm]
  norm_num

/-- Witness for C6 on the untrained example engine. -/
theorem predictEnsemble_fallback_witness :
    predictEnsemble exMLEngine [] = simulatePrediction [] :=
  predictEnsemble_fallback exMLEngine [] rfl rfl

end ML
